import Mathlib

/-!
Verification of the document-extraction service's core logic against its
specification.  The Python sources are shallowly embedded: Python `str`
values become `String`/`List Char`, `dict` values become ordered association
lists with Python's insert-or-overwrite semantics, raising code is modelled
with `Option`/`Except`, and every function is total (fuel arguments bound
recursion by the input length, which always suffices).
-/

/-- Character constants written via code points. -/
def lcub : Char := Char.ofNat 123

/-- Right curly brace character. -/
def rcub : Char := Char.ofNat 125

/-- Backtick character. -/
def btick : Char := Char.ofNat 96

/-- Double-quote character. -/
def dq : Char := Char.ofNat 34

/-- Backslash character. -/
def bslash : Char := Char.ofNat 92

/-- Whitespace recognised by Python's `str.strip()` and `re` `\s` for the
ASCII range (space, tab, newline, carriage return, vertical tab, form feed).
Inputs in this development are ASCII, so the non-ASCII Unicode whitespace
Python additionally strips is irrelevant here. -/
def isPySpace (c : Char) : Bool :=
  c = ' ' || c = '\t' || c = '\n' || c = '\r' || c = Char.ofNat 11 || c = Char.ofNat 12

/-- Python `str.strip()` with no arguments. -/
def pyStrip (s : String) : String :=
  String.mk (((s.toList.dropWhile isPySpace).reverse.dropWhile isPySpace).reverse)

/-- Python `"sep".join(parts)`. -/
def pyJoin (sep : String) : List String → String
  | [] => ""
  | [x] => x
  | x :: xs => x ++ sep ++ pyJoin sep xs

/-- JSON values as produced by Python's `json.loads`.  Integers keep their
exact value; floats are represented by their source lexeme (no claim in this
development compares float values). -/
inductive Json where
  | null
  | bool (b : Bool)
  | jint (n : Int)
  | jfloat (lit : String)
  | str (s : String)
  | arr (elems : List Json)
  | obj (fields : List (String × Json))

/-- Python `dict` insertion `d[k] = v`: overwrite in place if the key exists,
else append. -/
def insertPair (kvs : List (String × Json)) (k : String) (v : Json) :
    List (String × Json) :=
  if kvs.any (fun p => p.1 = k) then
    kvs.map (fun p => if p.1 = k then (k, v) else p)
  else
    kvs ++ [(k, v)]

/-- JSON whitespace skipped by the decoder (space, tab, newline, return). -/
def isJsonWs (c : Char) : Bool :=
  c = ' ' || c = '\t' || c = '\n' || c = '\r'

/-- Drop leading JSON whitespace. -/
def skipWs : List Char → List Char
  | [] => []
  | c :: cs => if isJsonWs c then skipWs cs else c :: cs

/-- Value of a hexadecimal digit. -/
def hexDigitVal (c : Char) : Option Nat :=
  if '0' ≤ c ∧ c ≤ '9' then some (c.toNat - 48)
  else if 'a' ≤ c ∧ c ≤ 'f' then some (c.toNat - 87)
  else if 'A' ≤ c ∧ c ≤ 'F' then some (c.toNat - 55)
  else none

/-- Four hexadecimal digits, as used by `\uXXXX` escapes. -/
def hex4 : List Char → Option (Nat × List Char)
  | a :: b :: c :: d :: rest =>
    match hexDigitVal a, hexDigitVal b, hexDigitVal c, hexDigitVal d with
    | some x, some y, some z, some w => some (((x * 16 + y) * 16 + z) * 16 + w, rest)
    | _, _, _, _ => none
  | _ => none

/-- Body of a JSON string after the opening quote, in strict mode: raw
control characters and invalid escapes are rejected, `\uXXXX` escapes are
decoded with surrogate-pair combination.  Lone surrogates (which Python
would keep as unpaired code units) are not representable in `Char` and are
rejected; no input in this development contains them. -/
def strBody : Nat → List Char → Option (List Char × List Char)
  | 0, _ => none
  | _ + 1, [] => none
  | f + 1, c :: cs =>
    if c = dq then some ([], cs)
    else if c = bslash then
      match cs with
      | [] => none
      | e :: cs2 =>
        if e = dq then (strBody f cs2).map (fun p => (dq :: p.1, p.2))
        else if e = bslash then (strBody f cs2).map (fun p => (bslash :: p.1, p.2))
        else if e = '/' then (strBody f cs2).map (fun p => ('/' :: p.1, p.2))
        else if e = 'b' then (strBody f cs2).map (fun p => (Char.ofNat 8 :: p.1, p.2))
        else if e = 'f' then (strBody f cs2).map (fun p => (Char.ofNat 12 :: p.1, p.2))
        else if e = 'n' then (strBody f cs2).map (fun p => ('\n' :: p.1, p.2))
        else if e = 'r' then (strBody f cs2).map (fun p => ('\r' :: p.1, p.2))
        else if e = 't' then (strBody f cs2).map (fun p => ('\t' :: p.1, p.2))
        else if e = 'u' then
          match hex4 cs2 with
          | none => none
          | some (n, cs3) =>
            if 0xD800 ≤ n ∧ n ≤ 0xDBFF then
              match cs3 with
              | u1 :: u2 :: cs4 =>
                if u1 = bslash ∧ u2 = 'u' then
                  match hex4 cs4 with
                  | some (m, cs5) =>
                    if 0xDC00 ≤ m ∧ m ≤ 0xDFFF then
                      (strBody f cs5).map (fun p =>
                        (Char.ofNat (0x10000 + (n - 0xD800) * 0x400 + (m - 0xDC00)) :: p.1, p.2))
                    else none
                  | none => none
                else none
              | _ => none
            else if 0xDC00 ≤ n ∧ n ≤ 0xDFFF then none
            else (strBody f cs3).map (fun p => (Char.ofNat n :: p.1, p.2))
        else none
    else if c.toNat < 0x20 then none
    else (strBody f cs).map (fun p => (c :: p.1, p.2))

/-- Numeric value of a digit string. -/
def digitsToNat (l : List Char) : Nat :=
  l.foldl (fun a c => a * 10 + (c.toNat - 48)) 0

/-- Optional fraction part `.digits+` of a JSON number; returns the consumed
lexeme and the remainder (consuming nothing when the grammar does not match,
exactly like the regex `(\.\d+)?`). -/
def fracSplit (cs : List Char) : List Char × List Char :=
  match cs with
  | c :: r =>
    if c = '.' then
      let ds := r.takeWhile Char.isDigit
      if ds = [] then ([], cs) else (c :: ds, r.dropWhile Char.isDigit)
    else ([], cs)
  | [] => ([], cs)

/-- Optional exponent part `[eE][+-]?digits+` of a JSON number. -/
def expSplit (cs : List Char) : List Char × List Char :=
  match cs with
  | e :: r =>
    if e = 'e' ∨ e = 'E' then
      match r with
      | s :: r2 =>
        if s = '+' ∨ s = '-' then
          let ds := r2.takeWhile Char.isDigit
          if ds = [] then ([], cs) else (e :: s :: ds, r2.dropWhile Char.isDigit)
        else
          let ds := r.takeWhile Char.isDigit
          if ds = [] then ([], cs) else (e :: ds, r.dropWhile Char.isDigit)
      | [] => ([], cs)
    else ([], cs)
  | [] => ([], cs)

/-- JSON number after an optional leading minus sign, following Python's
`NUMBER_RE`: int part `0|[1-9]\d*`, optional fraction, optional exponent.
No fraction and no exponent yields a Python `int`, otherwise a `float`
(kept as its lexeme). -/
def parseNumAfterSign (neg : Bool) (cs : List Char) : Option (Json × List Char) :=
  match cs with
  | [] => none
  | c :: rest =>
    if c.isDigit then
      let intPart := if c = '0' then [c] else c :: rest.takeWhile Char.isDigit
      let cs0 := if c = '0' then rest else rest.dropWhile Char.isDigit
      let (fracPart, cs1) := fracSplit cs0
      let (expPart, cs2) := expSplit cs1
      if fracPart = [] ∧ expPart = [] then
        let n : Int := Int.ofNat (digitsToNat intPart)
        some (Json.jint (if neg then -n else n), cs2)
      else
        some (Json.jfloat (String.mk ((if neg then ['-'] else []) ++ intPart ++ fracPart ++ expPart)), cs2)
    else none

/-- Literal continuation such as `rue` after `t`. -/
def expectLit (lit : String) (cs : List Char) (v : Json) : Option (Json × List Char) :=
  if lit.toList.isPrefixOf cs then some (v, cs.drop lit.length) else none

mutual

/-- JSON value parser (model of Python's `json` scanner).  The fuel strictly
decreases on every nested call; `jsonLoads` supplies `2·length + 2`, which is
always sufficient because at least one character is consumed between any two
fuel decrements along a call path. -/
def parseVal : Nat → List Char → Option (Json × List Char)
  | 0, _ => none
  | f + 1, cs =>
    match skipWs cs with
    | [] => none
    | c :: rest =>
      if c = lcub then
        match parseObjBody f rest with
        | some (kvs, r) => some (Json.obj kvs, r)
        | none => none
      else if c = '[' then
        match parseArrBody f (c :: rest) with
        | some (es, r) => some (Json.arr es, r)
        | none => none
      else if c = dq then
        match strBody (rest.length + 1) rest with
        | some (chars, r) => some (Json.str (String.mk chars), r)
        | none => none
      else if c = 't' then expectLit "rue" rest (Json.bool true)
      else if c = 'f' then expectLit "alse" rest (Json.bool false)
      else if c = 'n' then expectLit "ull" rest Json.null
      else if c = 'N' then expectLit "aN" rest (Json.jfloat "NaN")
      else if c = 'I' then expectLit "nfinity" rest (Json.jfloat "Infinity")
      else if c = '-' then
        if "Infinity".toList.isPrefixOf rest then some (Json.jfloat "-Infinity", rest.drop 8)
        else parseNumAfterSign true rest
      else if c.isDigit then parseNumAfterSign false (c :: rest)
      else none

/-- Object body after the opening brace. -/
def parseObjBody : Nat → List Char → Option (List (String × Json) × List Char)
  | 0, _ => none
  | f + 1, cs =>
    match skipWs cs with
    | [] => none
    | c :: rest =>
      if c = rcub then some ([], rest)
      else if c = dq then
        match strBody (rest.length + 1) rest with
        | some (kchars, r1) =>
          (match skipWs r1 with
           | ':' :: r2 =>
             match parseVal f r2 with
             | some (v, r3) => parseObjRest f r3 (insertPair [] (String.mk kchars) v)
             | none => none
           | _ => none)
        | none => none
      else none

/-- Object members after the first, expecting `,` or the closing brace. -/
def parseObjRest : Nat → List Char → List (String × Json) → Option (List (String × Json) × List Char)
  | 0, _, _ => none
  | f + 1, cs, acc =>
    match skipWs cs with
    | [] => none
    | c :: rest =>
      if c = rcub then some (acc, rest)
      else if c = ',' then
        match skipWs rest with
        | [] => none
        | k :: r1 =>
          if k = dq then
            match strBody (r1.length + 1) r1 with
            | some (kchars, r2) =>
              (match skipWs r2 with
               | ':' :: r3 =>
                 match parseVal f r3 with
                 | some (v, r4) => parseObjRest f r4 (insertPair acc (String.mk kchars) v)
                 | none => none
               | _ => none)
            | none => none
          else none
      else none

/-- Array body starting at the opening bracket. -/
def parseArrBody : Nat → List Char → Option (List Json × List Char)
  | 0, _ => none
  | f + 1, cs =>
    match cs with
    | [] => none
    | _ :: rest =>
      match skipWs rest with
      | [] => none
      | c :: r1 =>
        if c = ']' then some ([], r1)
        else
          match parseVal f rest with
          | some (v, r2) => parseArrRest f r2 [v]
          | none => none

/-- Array elements after the first, in reverse accumulator order. -/
def parseArrRest : Nat → List Char → List Json → Option (List Json × List Char)
  | 0, _, _ => none
  | f + 1, cs, acc =>
    match skipWs cs with
    | [] => none
    | c :: rest =>
      if c = ']' then some (acc.reverse, rest)
      else if c = ',' then
        match parseVal f rest with
        | some (v, r) => parseArrRest f r (v :: acc)
        | none => none
      else none

end

/-- Model of Python `json.loads`: parse one value surrounded by optional
whitespace; anything left over is a decode error (`none`). -/
def jsonLoads (s : String) : Option Json :=
  let cs := s.toList
  match parseVal (2 * cs.length + 2) cs with
  | some (v, rest) => if skipWs rest = [] then some v else none
  | none => none

/-!
Recovery Parser: `DynamicQueryService._robust_json_parse`
(`backend/app/services/dynamic_query_service.py`), one definition per
strategy in the source's order.
-/

/-- Strategy 1: direct strict JSON parsing of the stripped text; a non-dict
value is wrapped as `{"data": value}`. -/
def strat1 (content : String) : Option Json :=
  match jsonLoads (pyStrip content) with
  | some (Json.obj kvs) => some (Json.obj kvs)
  | some v => some (Json.obj [("data", v)])
  | none => none

/-- Test for three consecutive backticks. -/
def startsTriple (l : List Char) : Bool :=
  match l with
  | a :: b :: c :: _ => a = btick && b = btick && c = btick
  | _ => false

/-- Case-insensitive literal `json`, as matched by `(?:json)?` under
`re.IGNORECASE`. -/
def stripJsonCI : List Char → Option (List Char)
  | a :: b :: c :: d :: rest =>
    if a.toLower = 'j' ∧ b.toLower = 's' ∧ c.toLower = 'o' ∧ d.toLower = 'n' then some rest
    else none
  | _ => none

/-- Drop leading `re` whitespace (`\s*`). -/
def skipPyWs (l : List Char) : List Char := l.dropWhile isPySpace

/-- Lazy search for the group's closing brace: the first right brace that is
followed by `\s*` and three backticks ends the group `(\{.*?\})`; any other
right brace is absorbed by the lazy `.*?`. -/
def fenceClose : Nat → List Char → List Char → Option (List Char)
  | 0, _, _ => none
  | _ + 1, _, [] => none
  | f + 1, acc, c :: rest =>
    if c = rcub then
      if startsTriple (skipPyWs rest) then some (lcub :: (acc.reverse ++ [rcub]))
      else fenceClose f (rcub :: acc) rest
    else fenceClose f (c :: acc) rest

/-- Body of the fence pattern after the opening backticks and the optional
`json` tag: `\s*` then the braced group. -/
def fenceBody (cs : List Char) : Option (List Char) :=
  match skipPyWs cs with
  | c :: rest => if c = lcub then fenceClose (rest.length + 1) [] rest else none
  | [] => none

/-- After an opening triple backtick: the greedy `(?:json)?` first tries to
consume the tag, backtracking to the untagged branch on failure. -/
def fenceFrom (cs : List Char) : Option (List Char) :=
  match stripJsonCI cs with
  | some rest =>
    match fenceBody rest with
    | some g => some g
    | none => fenceBody cs
  | none => fenceBody cs

/-- Leftmost-start search for the fence pattern, advancing one character on
failure exactly like `re.search`. -/
def strat2Scan : Nat → List Char → Option (List Char)
  | 0, _ => none
  | _ + 1, [] => none
  | f + 1, c :: rest =>
    if startsTriple (c :: rest) then
      match fenceFrom ((c :: rest).drop 3) with
      | some g => some g
      | none => strat2Scan f rest
    else strat2Scan f rest

/-- Matched group of strategy 2's regex
`r'```(?:json)?\s*(\{.*?\})\s*```'` under `re.DOTALL | re.IGNORECASE`. -/
def strat2Extract (content : String) : Option String :=
  (strat2Scan (content.toList.length + 1) content.toList).map String.mk

/-- Strategy 2: extract JSON from a markdown code block and strict-parse it;
a parse failure falls through to the next strategy. -/
def strat2 (content : String) : Option Json :=
  (strat2Extract content).bind jsonLoads

mutual

/-- Matching of `\{[^{}]*(?:\{[^{}]*\}[^{}]*)*\}` after the opening brace at
depth one: a closing brace ends the match, an opening brace enters the inner
level, and the accumulated characters are returned with the braces. -/
def braceMatchOuter : Nat → List Char → List Char → Option (List Char × List Char)
  | 0, _, _ => none
  | _ + 1, _, [] => none
  | f + 1, acc, c :: rest =>
    if c = rcub then some (lcub :: (acc.reverse ++ [rcub]), rest)
    else if c = lcub then braceMatchInner f (lcub :: acc) rest
    else braceMatchOuter f (c :: acc) rest

/-- Depth-two level of the same pattern: a further opening brace makes the
whole match fail (the regex supports only one level of nesting). -/
def braceMatchInner : Nat → List Char → List Char → Option (List Char × List Char)
  | 0, _, _ => none
  | _ + 1, _, [] => none
  | f + 1, acc, c :: rest =>
    if c = rcub then braceMatchOuter f (rcub :: acc) rest
    else if c = lcub then none
    else braceMatchInner f (c :: acc) rest

end

/-- Non-overlapping `re.findall` scan for strategy 3's brace pattern. -/
def strat3Scan : Nat → List Char → List (List Char)
  | 0, _ => []
  | _ + 1, [] => []
  | f + 1, c :: rest =>
    if c = lcub then
      match braceMatchOuter (rest.length + 1) [] rest with
      | some (m, after) => m :: strat3Scan f after
      | none => strat3Scan f rest
    else strat3Scan f rest

/-- Stable insertion for descending length order. -/
def insertByLenDesc (x : List Char) : List (List Char) → List (List Char)
  | [] => [x]
  | y :: ys => if y.length ≤ x.length then x :: y :: ys else y :: insertByLenDesc x ys

/-- Python `sorted(candidates, key=len, reverse=True)`: descending by
length, stable on ties. -/
def sortByLenDesc (l : List (List Char)) : List (List Char) :=
  l.foldr insertByLenDesc []

/-- First candidate that parses to a non-empty dict. -/
def strat3Pick : List (List Char) → Option Json
  | [] => none
  | c :: rest =>
    match jsonLoads (String.mk c) with
    | some (Json.obj (kv :: kvs)) => some (Json.obj (kv :: kvs))
    | _ => strat3Pick rest

/-- Strategy 3: scan for brace-delimited candidates (one nesting level), try
longest first, accept the first non-empty object. -/
def strat3 (content : String) : Option Json :=
  strat3Pick (sortByLenDesc (strat3Scan (content.toList.length + 1) content.toList))

/-- Matched group of `re.search(r'\[(.*?)\]', content, re.DOTALL)`: the text
between the first left bracket and the first right bracket after it. -/
def strat4Extract (content : String) : Option String :=
  let cs := content.toList
  match cs.dropWhile (fun c => c ≠ '[') with
  | [] => none
  | _ :: rest =>
    match rest.dropWhile (fun c => c ≠ ']') with
    | [] => none
    | _ :: _ => some (String.mk (rest.takeWhile (fun c => c ≠ ']')))

/-- Strategy 4: re-bracket the group, parse it, and wrap the value as
`{"extracted_items": ...}`. -/
def strat4 (content : String) : Option Json :=
  (strat4Extract content).bind fun inner =>
    (jsonLoads ("[" ++ inner ++ "]")).map fun v => Json.obj [("extracted_items", v)]

/-- Tuple produced by one `re.findall` match of strategy 5's key/value
pattern; unmatched groups are empty strings, as in Python. -/
structure KVMatch where
  key : String
  arrayVal : String
  stringVal : String
  objectVal : String
  numberVal : String

/-- Value alternatives of the pattern
`"([^"]+)":\s*(?:\[(.*?)\]|"([^"]*)"|\{(.*?)\}|(\d+(?:\.\d+)?))`,
dispatching on the first character after `\s*`. -/
def kvValue (keyChars : List Char) (v : List Char) : Option (KVMatch × List Char) :=
  match v with
  | [] => none
  | c :: rest =>
    if c = '[' then
      match rest.dropWhile (fun x => x ≠ ']') with
      | [] => none
      | _ :: after =>
        some ({ key := String.mk keyChars, arrayVal := String.mk (rest.takeWhile (fun x => x ≠ ']')),
                stringVal := "", objectVal := "", numberVal := "" }, after)
    else if c = dq then
      match rest.dropWhile (fun x => x ≠ dq) with
      | [] => none
      | _ :: after =>
        some ({ key := String.mk keyChars, arrayVal := "",
                stringVal := String.mk (rest.takeWhile (fun x => x ≠ dq)),
                objectVal := "", numberVal := "" }, after)
    else if c = lcub then
      match rest.dropWhile (fun x => x ≠ rcub) with
      | [] => none
      | _ :: after =>
        some ({ key := String.mk keyChars, arrayVal := "", stringVal := "",
                objectVal := String.mk (rest.takeWhile (fun x => x ≠ rcub)), numberVal := "" }, after)
    else if c.isDigit then
      let ds := v.takeWhile Char.isDigit
      let afterDs := v.dropWhile Char.isDigit
      match afterDs with
      | '.' :: r2 =>
        let ds2 := r2.takeWhile Char.isDigit
        if ds2 = [] then
          some ({ key := String.mk keyChars, arrayVal := "", stringVal := "", objectVal := "",
                  numberVal := String.mk ds }, afterDs)
        else
          some ({ key := String.mk keyChars, arrayVal := "", stringVal := "", objectVal := "",
                  numberVal := String.mk (ds ++ '.' :: ds2) }, r2.dropWhile Char.isDigit)
      | _ =>
        some ({ key := String.mk keyChars, arrayVal := "", stringVal := "", objectVal := "",
                numberVal := String.mk ds }, afterDs)
    else none

/-- Attempt of the key/value pattern at one position: `"`, a non-empty
quote-free key, `"`, `:` immediately, `\s*`, then a value alternative. -/
def kvTryAt (cs : List Char) : Option (KVMatch × List Char) :=
  match cs with
  | [] => none
  | c :: rest =>
    if c = dq then
      let keyChars := rest.takeWhile (fun x => x ≠ dq)
      if keyChars = [] then none
      else
        match rest.dropWhile (fun x => x ≠ dq) with
        | [] => none
        | _ :: afterKey =>
          match afterKey with
          | ':' :: afterColon => kvValue keyChars (skipPyWs afterColon)
          | _ => none
    else none

/-- Non-overlapping `re.findall` scan for the key/value pattern. -/
def kvScan : Nat → List Char → List KVMatch
  | 0, _ => []
  | _ + 1, [] => []
  | f + 1, c :: rest =>
    match kvTryAt (c :: rest) with
    | some (m, after) => m :: kvScan f after
    | none => kvScan f rest

/-- Python `s.strip('"')`. -/
def pyStripQuotes (s : String) : String :=
  String.mk (((s.toList.dropWhile (fun c => c = dq)).reverse.dropWhile (fun c => c = dq)).reverse)

/-- Reconstruction of one matched value, including the comma-split fallback
for arrays and the `{"value": ...}` fallback for objects. -/
def strat5Value (m : KVMatch) : Json :=
  if m.arrayVal ≠ "" then
    match jsonLoads ("[" ++ m.arrayVal ++ "]") with
    | some v => v
    | none =>
      let items := (m.arrayVal.toList.splitOn ',').map
        (fun p => pyStripQuotes (pyStrip (String.mk p)))
      Json.arr ((items.filter (fun s => s ≠ "")).map Json.str)
  else if m.objectVal ≠ "" then
    match jsonLoads (String.mk (lcub :: (m.objectVal.toList ++ [rcub]))) with
    | some v => v
    | none => Json.obj [("value", Json.str (pyStrip m.objectVal))]
  else if m.numberVal ≠ "" then
    if m.numberVal.toList.contains '.' then Json.jfloat m.numberVal
    else Json.jint (Int.ofNat (digitsToNat m.numberVal.toList))
  else Json.str m.stringVal

/-- Key-by-key dict construction over the matches. -/
def strat5Build : List KVMatch → List (String × Json) → List (String × Json)
  | [], acc => acc
  | m :: rest, acc => strat5Build rest (insertPair acc m.key (strat5Value m))

/-- Strategy 5: reconstruct a mapping from key/value pattern matches;
no matches or an empty result falls through. -/
def strat5 (content : String) : Option Json :=
  match kvScan (content.toList.length + 1) content.toList with
  | [] => none
  | m :: rest =>
    match strat5Build (m :: rest) [] with
    | [] => none
    | kv :: kvs => some (Json.obj (kv :: kvs))

/-- Message of the terminal fallback. -/
def parseErrorMessage : String := "Could not parse AI response into valid JSON structure"

/-- Model of `DynamicQueryService._robust_json_parse`: the strictly ordered
strategy chain with the terminal error mapping carrying a 500-character
preview of the raw text. -/
def robust_json_parse (content : String) : Json :=
  match strat1 content with
  | some v => v
  | none =>
  match strat2 content with
  | some v => v
  | none =>
  match strat3 content with
  | some v => v
  | none =>
  match strat4 content with
  | some v => v
  | none =>
  match strat5 content with
  | some v => v
  | none =>
    Json.obj [("error", Json.str parseErrorMessage),
              ("raw_response", Json.str (String.mk (content.toList.take 500)))]

/-!
Document Sectioner: `_split_into_sections` and
`_preprocess_document_with_citations`.  Each regex in `section_patterns` is
embedded as a matcher returning the remainder after a match at the scanned
position; `re.split` removes the matched text (none of the patterns has a
capture group).
-/

/-- ASCII uppercase letter, the regex class `[A-Z]`. -/
def isAZ (c : Char) : Bool := 65 ≤ c.toNat && c.toNat ≤ 90

/-- Alternation `(?:CHAPTER|Chapter|SECTION|Section)`; the branches are
mutually exclusive prefixes. -/
def stripSectionKeyword (cs : List Char) : Option (List Char) :=
  if "CHAPTER".toList.isPrefixOf cs then some (cs.drop 7)
  else if "Chapter".toList.isPrefixOf cs then some (cs.drop 7)
  else if "SECTION".toList.isPrefixOf cs then some (cs.drop 7)
  else if "Section".toList.isPrefixOf cs then some (cs.drop 7)
  else none

/-- Matcher for `r'\n\s*(?:CHAPTER|Chapter|SECTION|Section)\s+\d+'`. -/
def matchChapter : List Char → Option (List Char)
  | [] => none
  | c :: rest =>
    if c = '\n' then
      match stripSectionKeyword (skipPyWs rest) with
      | some r2 =>
        match r2 with
        | w :: _ =>
          if isPySpace w then
            match skipPyWs r2 with
            | d :: _ => if d.isDigit then some ((skipPyWs r2).dropWhile Char.isDigit) else none
            | [] => none
          else none
        | [] => none
      | none => none
    else none

/-- Matcher for `r'\n\s*\d+\.\s+[A-Z]'` (the uppercase letter is part of the
match and is removed by `re.split`). -/
def matchNumbered : List Char → Option (List Char)
  | [] => none
  | c :: rest =>
    if c = '\n' then
      let r1 := skipPyWs rest
      match r1 with
      | d :: _ =>
        if d.isDigit then
          match r1.dropWhile Char.isDigit with
          | '.' :: r2 =>
            match r2 with
            | w :: _ =>
              if isPySpace w then
                match skipPyWs r2 with
                | u :: r3 => if isAZ u then some r3 else none
                | [] => none
              else none
            | [] => none
          | _ => none
        else none
      | [] => none
    else none

/-- Largest index `k` with `lo ≤ k < run.length` whose character is a
newline; this is where the greedy `{10,}` repetition backtracks to. -/
def lastNewlineIdxGE (lo : Nat) (run : List Char) : Option Nat :=
  (List.range run.length).foldl
    (fun acc k => if lo ≤ k ∧ run.getD k ' ' = '\n' then some k else acc) none

/-- Matcher for `r'\n\s*[A-Z][A-Z\s]{10,}\n'`. -/
def matchCapsHeader : List Char → Option (List Char)
  | [] => none
  | c :: rest =>
    if c = '\n' then
      let r1 := skipPyWs rest
      match r1 with
      | u :: r2 =>
        if isAZ u then
          let run := r2.takeWhile (fun x => isAZ x || isPySpace x)
          match lastNewlineIdxGE 10 run with
          | some k => some (r2.drop (k + 1))
          | none => none
        else none
      | [] => none
    else none

/-- Matcher for `r'\n\s*={3,}\n'` and `r'\n\s*-{3,}\n'`. -/
def matchRule (ruleChar : Char) : List Char → Option (List Char)
  | [] => none
  | c :: rest =>
    if c = '\n' then
      let r1 := skipPyWs rest
      if (r1.takeWhile (fun x => x = ruleChar)).length ≥ 3 then
        match r1.dropWhile (fun x => x = ruleChar) with
        | nl :: r2 => if nl = '\n' then some r2 else none
        | [] => none
      else none
    else none

/-- The `section_patterns` list, in the source's order. -/
def sectionMatchers : List (List Char → Option (List Char)) :=
  [matchChapter, matchNumbered, matchCapsHeader, matchRule '=', matchRule '-']

/-- Model of `re.split`: scan left to right, cut at each non-overlapping
match (every matcher consumes at least two characters, so fuel
`length + 1` suffices). -/
def reSplitGo (m : List Char → Option (List Char)) :
    Nat → List Char → List Char → List (List Char)
  | 0, acc, _ => [acc.reverse]
  | _ + 1, acc, [] => [acc.reverse]
  | f + 1, acc, c :: rest =>
    match m (c :: rest) with
    | some after => acc.reverse :: reSplitGo m f [] after
    | none => reSplitGo m f (c :: acc) rest

/-- Split a string at the matches of one section pattern. -/
def reSplit (m : List Char → Option (List Char)) (s : String) : List String :=
  (reSplitGo m (s.toList.length + 1) [] s.toList).map String.mk

/-- Loop over `section_patterns`: split every current section, keep pieces
with non-blank content, and stop at the first pattern producing more than
one piece (otherwise the previous sections are kept unchanged). -/
def tryPatterns : List (List Char → Option (List Char)) → List String → List String
  | [], sections => sections
  | m :: ms, sections =>
    let new_sections :=
      (sections.map (fun sec => (reSplit m sec).filter (fun s => pyStrip s ≠ ""))).flatten
    if new_sections.length > 1 then new_sections else tryPatterns ms sections

/-- Fixed-size chunk slices `[s[i:i+cs] for i in range(0, len(s), cs)]`. -/
def pyChunksGo (s : List Char) (cs : Nat) (hcs : 0 < cs) (i : Nat) : List (List Char) :=
  if h : i < s.length then ((s.drop i).take cs) :: pyChunksGo s cs hcs (i + cs) else []
termination_by s.length - i
decreasing_by omega

/-- Chunking wrapper; a zero step would be a `ValueError` in Python's
`range` and never occurs on the fallback path, where the chunk size is
positive. -/
def pyChunks (s : List Char) (cs : Nat) : List (List Char) :=
  if hcs : 0 < cs then pyChunksGo s cs hcs 0 else []

/-- Model of `DynamicQueryService._split_into_sections`. -/
def split_into_sections (document_text : String) : List String :=
  let sections := tryPatterns sectionMatchers [document_text]
  if sections.length = 1 ∧ document_text.length > 2000 then
    let chunk_size := document_text.length / ((document_text.length + 999) / 1000)
    (pyChunks document_text.toList chunk_size).map String.mk
  else sections

/-- Token budget fixed in `DynamicQueryService.__init__`. -/
def max_document_tokens : Nat := 6000

/-- Sections wrapped in `[PAGE N]` / `[/PAGE N]` markers. -/
def pageMarked (k : Nat) : List String → List String
  | [] => []
  | sec :: rest =>
    ("[PAGE " ++ toString (k + 1) ++ "]\n" ++ pyStrip sec ++ "\n[/PAGE " ++ toString (k + 1) ++ "]") ::
      pageMarked (k + 1) rest

/-- Citation map `page_map[f"page_{n}"] = n`, one entry per section. -/
def pageMapFrom (k : Nat) : List String → List (String × Nat)
  | [] => []
  | _ :: rest => ("page_" ++ toString (k + 1), k + 1) :: pageMapFrom (k + 1) rest

/-- Model of `_preprocess_document_with_citations`. -/
def preprocess_document_with_citations (document_text : String) (enable_citations : Bool) :
    String × List (String × Nat) :=
  if enable_citations then
    let sections := split_into_sections document_text
    let processed_doc := pyJoin "\n\n" (pageMarked 0 sections)
    let page_map := pageMapFrom 0 sections
    let final_doc :=
      if processed_doc.length > max_document_tokens * 4 then
        String.mk (processed_doc.toList.take (max_document_tokens * 4)) ++
          "\n\n[DOCUMENT TRUNCATED DUE TO LENGTH...]"
      else processed_doc
    (final_doc, page_map)
  else (document_text, [])

/-- Python `str.lower()`, character by character (the inputs lowered in
this development are ASCII). -/
def pyLower (s : String) : String :=
  String.mk (s.toList.map Char.toLower)

/-- Substring containment, Python's `needle in hay`. -/
def containsSub : Nat → List Char → List Char → Bool
  | 0, _, _ => false
  | f + 1, hay, needle =>
    if needle.isPrefixOf hay then true
    else match hay with
      | [] => false
      | _ :: t => containsSub f t needle

/-- String-level containment wrapper. -/
def pyContains (hay needle : String) : Bool :=
  containsSub (hay.toList.length + 1) hay.toList needle.toList

/-- Model of `_should_use_summarization`. -/
def should_use_summarization (document_text query : String) : Bool :=
  if document_text.length < 3000 then false
  else
    let query_lower := pyLower query
    if (["extract all", "list all", "get all", "find all",
         "complete list", "full text", "entire", "whole"]).any
        (fun ind => pyContains query_lower ind) then false
    else if (["summary", "overview", "brief", "main points", "key points",
              "important", "significant", "major", "primary"]).any
        (fun ind => pyContains query_lower ind) then true
    else decide (document_text.length > 5000)

/-!
Result models (`backend/app/models.py`) and the dynamic-query flow
(`process_dynamic_query`, `process_with_custom_options`).
-/

/-- The three variants of `ExtractResponse`. -/
inductive ResultVariant where
  | template
  | ai
  | error
deriving DecidableEq

/-- Pydantic required-field satisfaction for a JSON object:
`TemplateExtractionResult` declares no fields (and allows extras), so every
object satisfies it; `AIExtractionResult` requires `ai_extraction_result`
as a dict; `ErrorResult` requires `error` as a string. -/
def requiredFieldsSatisfied (v : ResultVariant) (o : List (String × Json)) : Bool :=
  match v with
  | .template => true
  | .ai =>
    match o.lookup "ai_extraction_result" with
    | some (Json.obj _) => true
    | _ => false
  | .error =>
    match o.lookup "error" with
    | some (Json.str _) => true
    | _ => false

/-- Lookup in a parsed mapping (`parsed_data["error"]`). -/
def lookupJ (j : Json) (k : String) : Option Json :=
  match j with
  | .obj kvs => kvs.lookup k
  | _ => none

/-- Python `key in parsed_data`. -/
def hasKeyJ (j : Json) (k : String) : Bool := (lookupJ j k).isSome

/-- Result union `Union[AIExtractionResult, ErrorResult]` of the
dynamic-query entry points. -/
inductive DQResult where
  | ai (payload : Json)
  | err (msg : String)

/-- Stand-in for `str(ValidationError)` raised when `ErrorResult(error=v)`
receives a non-string `v` (pydantic v2 does not coerce to `str`); its exact
text is irrelevant to every claim. -/
def pydanticStrFieldErrorText : String := "1 validation error for ErrorResult"

/-- Model of `process_dynamic_query` from the model response onward.  The
network call is external, so the response text arrives as an oracle
argument (`none` models a `None` message content) together with the
measured processing time; the service client is assumed configured, which
is presupposed by every claim about model responses. -/
def process_dynamic_query (document_text natural_query : String)
    (enable_summarization enable_citations : Bool)
    (response_content : Option String) (processing_time : String) : DQResult :=
  match response_content with
  | none => DQResult.err "Empty response from AI model"
  | some rc =>
    if rc = "" then DQResult.err "Empty response from AI model"
    else
      let pr := preprocess_document_with_citations document_text enable_citations
      let processed_doc := pr.1
      let use_summarization :=
        enable_summarization && should_use_summarization processed_doc natural_query
      let parsed_data := robust_json_parse rc
      if hasKeyJ parsed_data "error" then
        match lookupJ parsed_data "error" with
        | some (Json.str s) => DQResult.err s
        | _ => DQResult.err ("Dynamic query failed: " ++ pydanticStrFieldErrorText)
      else
        DQResult.ai (Json.obj [
          ("status", Json.str "success"),
          ("message", Json.str "Dynamic query processed successfully"),
          ("query", Json.str natural_query),
          ("schema_type", Json.str "dynamic"),
          ("data", parsed_data),
          ("processing_time", Json.jfloat processing_time),
          ("summarization_used", Json.bool use_summarization),
          ("citations_enabled", Json.bool enable_citations),
          ("optimization_stats", Json.obj [
            ("original_doc_length", Json.jint document_text.length),
            ("processed_doc_length", Json.jint processed_doc.length),
            ("token_savings",
              Json.jint (max 0 ((document_text.length : Int) - processed_doc.length)))])])

/-- Mutable service configuration touched by `process_with_custom_options`. -/
structure DQConfig where
  long_text_threshold : Nat
  citation_enabled : Bool

/-- Model of `process_with_custom_options`: save the two fields, set the
overrides, run the wrapped processing (an arbitrary state transformer that
may also raise, modelled by `Except`), and restore the fields in the
`finally` block on both exits. -/
def process_with_custom_options (cfg : DQConfig) (document_text natural_query : String)
    (max_summary_length : Nat) (force_summarization : Bool) (citation_style : String)
    (inner : DQConfig → String → String → Bool → Bool → Except String DQResult × DQConfig) :
    Except String DQResult × DQConfig :=
  let original_threshold := cfg.long_text_threshold
  let original_citations := cfg.citation_enabled
  let cfg1 := if force_summarization then { cfg with long_text_threshold := 0 } else cfg
  let cfg2 := { cfg1 with citation_enabled := citation_style ≠ "none" }
  let r := inner cfg2 document_text natural_query true cfg2.citation_enabled
  (r.1, { r.2 with long_text_threshold := original_threshold,
                   citation_enabled := original_citations })

/-!
Document processor (`backend/app/services/document_processor.py`): PDF page
assembly, extension validation, and the `process_document` control flow.
-/

/-- Non-blank pages with their `--- Page N ---` headers, from
`_extract_text_from_pdf`'s page loop (a PDF is modelled by its ordered list
of per-page extracted texts). -/
def pdfPageTexts (k : Nat) : List String → List String
  | [] => []
  | p :: rest =>
    if pyStrip p ≠ "" then
      ("--- Page " ++ toString (k + 1) ++ " ---" ++ "\n" ++ p) :: pdfPageTexts (k + 1) rest
    else pdfPageTexts (k + 1) rest

/-- Model of `_extract_text_from_pdf`: join the retained pages with blank
lines; a PDF with no textual page raises. -/
def extract_text_from_pdf (pages : List String) : Except String String :=
  match pdfPageTexts 0 pages with
  | [] => Except.error "No text content found in PDF"
  | t :: ts => Except.ok (pyJoin "\n\n" (t :: ts))

/-- Original 1-based numbers of the retained pages (specification-side view
of the same loop). -/
def pdfMarkerNums (k : Nat) : List String → List Nat
  | [] => []
  | p :: rest =>
    if pyStrip p ≠ "" then (k + 1) :: pdfMarkerNums (k + 1) rest
    else pdfMarkerNums (k + 1) rest

/-- Last path component (POSIX separators), as `pathlib` derives `name`. -/
def lastPathComponent (cs : List Char) : List Char :=
  ((cs.splitOn '/').filter (fun p => p ≠ [])).getLastD []

/-- Model of `pathlib.Path(filename).suffix`: the part of the name from its
last dot, when that dot is neither the first nor the last character. -/
def pathSuffix (filename : String) : String :=
  let name := lastPathComponent filename.toList
  match name.reverse.findIdx? (fun c => c = '.') with
  | none => ""
  | some r =>
    let i := name.length - 1 - r
    if 0 < i ∧ i < name.length - 1 then String.mk (name.drop i) else ""

/-- Model of `_is_supported_file_type`: lowercased extension membership in
the hardcoded list; a missing filename is unsupported. -/
def is_supported_file_type : Option String → Bool
  | none => false
  | some fn => [".pdf", ".docx", ".txt", ".png", ".jpg", ".jpeg"].contains (pyLower (pathSuffix fn))

/-- Settings fields read by validation. -/
structure AppSettings where
  max_file_size_mb : Nat
  supported_file_types : String

/-- Defaults from `config.Settings`. -/
def defaultSettings : AppSettings :=
  { max_file_size_mb := 50, supported_file_types := ".pdf,.docx,.txt,.png,.jpg,.jpeg" }

/-- Model of `validate_document`: the `(valid, errors)` pair; file size is
`none` when the underlying stream is not seekable (the size check is then
skipped, as in the source). -/
def validate_document (st : AppSettings) (filename : Option String) (size : Option Nat) :
    Bool × List String :=
  let sizeErrors :=
    match size with
    | some fs =>
      if fs > st.max_file_size_mb * 1024 * 1024 then
        ["File size (" ++ toString fs ++ " bytes) exceeds maximum allowed size (" ++
          toString (st.max_file_size_mb * 1024 * 1024) ++ " bytes)"]
      else []
    | none => []
  let typeErrors :=
    if is_supported_file_type filename then []
    else ["Unsupported file type. Supported types: " ++ st.supported_file_types]
  ((sizeErrors ++ typeErrors).isEmpty, sizeErrors ++ typeErrors)

/-- The three-variant response union of `models.ExtractResponse`. -/
inductive ExtractResponse where
  | templateResult (fields : List (String × Json))
  | aiResult (payload : Json)
  | errorResult (msg : String)

/-- Model of `process_document`: validation gate, then text extraction,
then the AI call.  The two collaborator effects (text extractor and
single-stage AI extraction) are explicit function arguments, so a result
that is independent of them was produced without either being consulted. -/
def process_document (st : AppSettings) (filename : Option String) (size : Option Nat)
    (content : List UInt8)
    (extractText : List UInt8 → Option String → Except String String)
    (aiExtract : String → Except String ExtractResponse) : ExtractResponse :=
  let v := validate_document st filename size
  if ¬ v.1 then .errorResult ("File validation failed: " ++ pyJoin ", " v.2)
  else
    match extractText content filename with
    | .error e => .errorResult ("Text extraction failed: " ++ e)
    | .ok text_content =>
      if pyStrip text_content = "" then
        .errorResult "No text content found - the document appears to be empty or contains no extractable text"
      else
        match aiExtract text_content with
        | .error e => .errorResult ("AI extraction failed: " ++ e)
        | .ok r => r

/-- All five recovery strategies decline, so the terminal fallback fires. -/
def allStrategiesFail (s : String) : Prop :=
  strat1 s = none ∧ strat2 s = none ∧ strat3 s = none ∧ strat4 s = none ∧ strat5 s = none

/-!
Lemmas: every recovery strategy that succeeds yields a JSON object.
-/

theorem skipWs_lcub (t : List Char) : skipWs (lcub :: t) = lcub :: t := by
  rw [skipWs, if_neg]
  decide

theorem parseVal_lcub (f : Nat) (t : List Char) (v : Json) (r : List Char)
    (h : parseVal (f + 1) (lcub :: t) = some (v, r)) : ∃ kvs, v = Json.obj kvs := by
  simp only [parseVal, skipWs_lcub] at h
  rw [if_pos trivial] at h
  split at h
  · rename_i kvs r2 heq
    have := Option.some.inj h
    exact ⟨kvs, (congrArg Prod.fst this).symm⟩
  · exact absurd h (by simp)

theorem jsonLoads_lcub (g : String) (l : List Char) (v : Json)
    (hg : g.toList = lcub :: l) (h : jsonLoads g = some v) : ∃ kvs, v = Json.obj kvs := by
  simp only [jsonLoads, hg] at h
  cases hp : parseVal (2 * (lcub :: l).length + 2) (lcub :: l) with
  | none => rw [hp] at h; exact absurd h (by simp)
  | some pr =>
    rw [hp] at h
    obtain ⟨w, r⟩ := pr
    have hp' : parseVal (2 * (lcub :: l).length + 1 + 1) (lcub :: l) = some (w, r) := hp
    have hwv : w = v := by
      by_cases hr : skipWs r = []
      · simpa [hr] using h
      · simp [hr] at h
    exact hwv ▸ parseVal_lcub _ l w r hp'

theorem strat1_obj (s : String) (v : Json) (h : strat1 s = some v) :
    ∃ kvs, v = Json.obj kvs := by
  unfold strat1 at h
  split at h
  · exact ⟨_, (Option.some.inj h).symm⟩
  · exact ⟨_, (Option.some.inj h).symm⟩
  · exact absurd h (by simp)

theorem fenceClose_shape (f : Nat) :
    ∀ (acc cs g : List Char), fenceClose f acc cs = some g → ∃ t, g = lcub :: t := by
  induction f with
  | zero => intro acc cs g h; simp [fenceClose] at h
  | succ f ih =>
    intro acc cs g h
    cases cs with
    | nil => simp [fenceClose] at h
    | cons c rest =>
      rw [fenceClose] at h
      split_ifs at h with h1 h2
      · exact ⟨_, (Option.some.inj h).symm⟩
      · exact ih _ _ _ h
      · exact ih _ _ _ h

theorem fenceBody_shape (cs g : List Char) (h : fenceBody cs = some g) :
    ∃ t, g = lcub :: t := by
  unfold fenceBody at h
  split at h
  · split_ifs at h with h1
    exact fenceClose_shape _ _ _ _ h
  · exact absurd h (by simp)

theorem fenceFrom_shape (cs g : List Char) (h : fenceFrom cs = some g) :
    ∃ t, g = lcub :: t := by
  unfold fenceFrom at h
  split at h
  · rename_i rest heq
    split at h
    · rename_i g' heq'
      obtain ⟨t, ht⟩ := fenceBody_shape _ _ heq'
      exact ⟨t, (Option.some.inj h).symm.trans ht⟩
    · exact fenceBody_shape _ _ h
  · exact fenceBody_shape _ _ h

theorem strat2Scan_shape (f : Nat) :
    ∀ (cs g : List Char), strat2Scan f cs = some g → ∃ t, g = lcub :: t := by
  induction f with
  | zero => intro cs g h; simp [strat2Scan] at h
  | succ f ih =>
    intro cs g h
    cases cs with
    | nil => simp [strat2Scan] at h
    | cons c rest =>
      rw [strat2Scan] at h
      split_ifs at h with h1
      · split at h
        · rename_i g' heq
          exact (Option.some.inj h) ▸ fenceFrom_shape _ _ heq
        · exact ih _ _ h
      · exact ih _ _ h

theorem strat2_obj (s : String) (v : Json) (h : strat2 s = some v) :
    ∃ kvs, v = Json.obj kvs := by
  unfold strat2 strat2Extract at h
  rcases Option.bind_eq_some.mp h with ⟨g, hg, hload⟩
  rcases Option.map_eq_some'.mp hg with ⟨gl, hscan, hmk⟩
  rcases strat2Scan_shape _ _ _ hscan with ⟨t, ht⟩
  refine jsonLoads_lcub g t v ?_ hload
  rw [← hmk, ht]
  rfl

theorem strat3Pick_obj (l : List (List Char)) (v : Json) (h : strat3Pick l = some v) :
    ∃ kvs, v = Json.obj kvs := by
  induction l with
  | nil => simp [strat3Pick] at h
  | cons c rest ih =>
    rw [strat3Pick] at h
    split at h
    · exact ⟨_, (Option.some.inj h).symm⟩
    · exact ih h

theorem strat3_obj (s : String) (v : Json) (h : strat3 s = some v) :
    ∃ kvs, v = Json.obj kvs :=
  strat3Pick_obj _ _ h

theorem strat4_obj (s : String) (v : Json) (h : strat4 s = some v) :
    ∃ kvs, v = Json.obj kvs := by
  unfold strat4 at h
  rcases Option.bind_eq_some.mp h with ⟨inner, _, hmap⟩
  rcases Option.map_eq_some'.mp hmap with ⟨w, _, hv⟩
  exact ⟨_, hv.symm⟩

theorem strat5_obj (s : String) (v : Json) (h : strat5 s = some v) :
    ∃ kvs, v = Json.obj kvs := by
  unfold strat5 at h
  split at h
  · exact absurd h (by simp)
  · split at h
    · exact absurd h (by simp)
    · exact ⟨_, (Option.some.inj h).symm⟩

theorem robust_json_parse_obj (content : String) :
    ∃ kvs, robust_json_parse content = Json.obj kvs := by
  unfold robust_json_parse
  split
  · rename_i v h; exact strat1_obj _ _ h
  · split
    · rename_i v h; exact strat2_obj _ _ h
    · split
      · rename_i v h; exact strat3_obj _ _ h
      · split
        · rename_i v h; exact strat4_obj _ _ h
        · split
          · rename_i v h; exact strat5_obj _ _ h
          · exact ⟨_, rfl⟩

/-- Claim C1: the Recovery Parser is total — for every input string it
returns a key/value mapping (it is modelled without any exception channel,
every raising site being caught in the source), and when every strategy
declines it returns exactly the terminal mapping with keys `error` and
`raw_response`, whose preview is the first 500 characters of the input and
hence at most 500 characters long. -/
theorem recovery_parser_total (content : String) :
    (∃ kvs, robust_json_parse content = Json.obj kvs)
    ∧ (allStrategiesFail content →
        robust_json_parse content =
          Json.obj [("error", Json.str parseErrorMessage),
                    ("raw_response", Json.str (String.mk (content.toList.take 500)))])
    ∧ (String.mk (content.toList.take 500)).length ≤ 500 := by
  refine ⟨robust_json_parse_obj content, ?_, ?_⟩
  · rintro ⟨h1, h2, h3, h4, h5⟩
    unfold robust_json_parse
    rw [h1, h2, h3, h4, h5]
  · show (content.toList.take 500).length ≤ 500
    rw [List.length_take]
    exact min_le_left _ _

/-- Witness for C1 at a prose input on which every strategy declines. -/
theorem recovery_parser_total_witness :
    robust_json_parse "no json here!!" =
      Json.obj [("error", Json.str parseErrorMessage),
                ("raw_response", Json.str (String.mk ("no json here!!".toList.take 500)))] :=
  (recovery_parser_total "no json here!!").2.1 ⟨rfl, rfl, rfl, rfl, rfl⟩

/-- Claim C2 (counterexample): on the truncated input
`{"teams": [{"name": "Spurs", "result": "lost"}` the Recovery Parser does
NOT fall through to the terminal strategy — the result carries no `error`
key, refuting the claimed scenario. -/
theorem recovery_parser_truncated_scenario_counterexample :
    hasKeyJ (robust_json_parse "\x7b\"teams\": [\x7b\"name\": \"Spurs\", \"result\": \"lost\"\x7d")
      "error" = false := rfl

/-- Claim C2 (amended): strategies 1 and 2 decline on the truncated input,
but strategy 3's brace scan recovers the complete inner object, so the
parser returns `{"name": "Spurs", "result": "lost"}` — an object without an
`error` key — instead of the terminal error mapping. -/
theorem recovery_parser_truncated_scenario :
    robust_json_parse "\x7b\"teams\": [\x7b\"name\": \"Spurs\", \"result\": \"lost\"\x7d" =
      Json.obj [("name", Json.str "Spurs"), ("result", Json.str "lost")] := rfl

/-- Claim C3 (counterexample): for the input `"3"` strategy 1 succeeds
(the trimmed text parses as strict JSON), yet the result of the Recovery
Parser is the wrapped `{"data": 3}`, not `json_decode(trim(input))` itself. -/
theorem strategy1_idempotence_counterexample :
    jsonLoads (pyStrip "3") = some (Json.jint 3)
    ∧ robust_json_parse "3" ≠ Json.jint 3 := by
  refine ⟨rfl, ?_⟩
  intro hEq
  rw [show robust_json_parse "3" = Json.obj [("data", Json.jint 3)] from rfl] at hEq
  exact Json.noConfusion hEq

/-- Claim C3 (amended): when strategy 1 succeeds the result equals
`json_decode(trim(input))` exactly if the decoded value is a JSON object;
a decoded non-object is returned wrapped as `{"data": value}`. -/
theorem strategy1_idempotence (s : String) :
    (∀ kvs, jsonLoads (pyStrip s) = some (Json.obj kvs) → robust_json_parse s = Json.obj kvs)
    ∧ (∀ v, jsonLoads (pyStrip s) = some v → (∀ kvs, v ≠ Json.obj kvs) →
        robust_json_parse s = Json.obj [("data", v)]) := by
  constructor
  · intro kvs h
    unfold robust_json_parse strat1
    rw [h]
  · intro v h hne
    unfold robust_json_parse strat1
    rw [h]
    cases v <;> first | rfl | exact absurd rfl (hne _)

/-- Witness for C3's amended statement at a concrete object input. -/
theorem strategy1_idempotence_witness :
    robust_json_parse "\x7b\"a\": 1\x7d" = Json.obj [("a", Json.jint 1)] :=
  (strategy1_idempotence _).1 _ rfl

/-- Claim C4: round-trip through markdown wrapping — whenever direct parsing
fails and the fenced-block regex extracts a group that strict-parses to an
object, the Recovery Parser returns exactly that embedded object. -/
theorem fenced_block_roundtrip (s g : String) (kvs : List (String × Json))
    (h1 : jsonLoads (pyStrip s) = none) (h2 : strat2Extract s = some g)
    (h3 : jsonLoads g = some (Json.obj kvs)) :
    robust_json_parse s = Json.obj kvs := by
  have hs1 : strat1 s = none := by unfold strat1; rw [h1]
  have hs2 : strat2 s = some (Json.obj kvs) := by simp [strat2, h2, h3]
  unfold robust_json_parse
  rw [hs1, hs2]

/-- Witness for C4 at the specified scenario: prose followed by a
```json fence containing `{"emails": ["a@b.com"]}` yields exactly that
object. -/
theorem fenced_block_roundtrip_witness :
    robust_json_parse "Here is the result:\n```json\n\x7b\"emails\": [\"a@b.com\"]\x7d\n```" =
      Json.obj [("emails", Json.arr [Json.str "a@b.com"])] :=
  fenced_block_roundtrip _ "\x7b\"emails\": [\"a@b.com\"]\x7d" _ rfl rfl rfl

/-- Claim C5 (counterexample): the three result variants are NOT pairwise
structurally disjoint in required fields — `TemplateExtractionResult` has no
required fields, so `{"error": "x"}` satisfies both it and `ErrorResult`;
an object carrying both keys satisfies both `AIExtractionResult` and
`ErrorResult`. -/
theorem result_variants_disjoint_counterexample :
    ResultVariant.template ≠ ResultVariant.error
    ∧ requiredFieldsSatisfied .template [("error", Json.str "x")] = true
    ∧ requiredFieldsSatisfied .error [("error", Json.str "x")] = true
    ∧ ResultVariant.ai ≠ ResultVariant.error
    ∧ requiredFieldsSatisfied .ai
        [("ai_extraction_result", Json.obj []), ("error", Json.str "x")] = true
    ∧ requiredFieldsSatisfied .error
        [("ai_extraction_result", Json.obj []), ("error", Json.str "x")] = true := by
  refine ⟨by decide, rfl, rfl, by decide, rfl, rfl⟩

/-- Claim C5 (amended): only `AIExtractionResult` and `ErrorResult` have
required fields, and those required keys are distinct — so each of these two
variants is ruled out whenever its key is absent; `TemplateExtractionResult`
has no required fields and is satisfied by every object, so required fields
alone cannot determine the variant unambiguously. -/
theorem result_variants_required_fields :
    (∀ o, requiredFieldsSatisfied .template o = true)
    ∧ (∀ o, o.lookup "ai_extraction_result" = (none : Option Json) →
        requiredFieldsSatisfied .ai o = false)
    ∧ (∀ o, o.lookup "error" = (none : Option Json) →
        requiredFieldsSatisfied .error o = false)
    ∧ ("ai_extraction_result" : String) ≠ "error" := by
  refine ⟨fun o => rfl, ?_, ?_, by decide⟩
  · intro o h
    unfold requiredFieldsSatisfied
    rw [h]
  · intro o h
    unfold requiredFieldsSatisfied
    rw [h]

/-- Witness for C5's amended statement at concrete objects. -/
theorem result_variants_required_fields_witness :
    requiredFieldsSatisfied .template [] = true
    ∧ requiredFieldsSatisfied .ai [("error", Json.str "x")] = false
    ∧ requiredFieldsSatisfied .error [("ai_extraction_result", Json.obj [])] = false :=
  ⟨result_variants_required_fields.1 [],
   result_variants_required_fields.2.1 [("error", Json.str "x")] rfl,
   result_variants_required_fields.2.2.1 [("ai_extraction_result", Json.obj [])] rfl⟩

/-- Claim C10: `process_with_custom_options` restores the service's
`long_text_threshold` and `citation_enabled` fields to their pre-call
values for every argument combination and every behaviour of the wrapped
processing — including state mutation and raising, both modelled by the
arbitrary `inner` transformer — because the `finally` block always writes
the saved values back. -/
theorem custom_options_restores_config (cfg : DQConfig) (document_text natural_query : String)
    (max_summary_length : Nat) (force_summarization : Bool) (citation_style : String)
    (inner : DQConfig → String → String → Bool → Bool → Except String DQResult × DQConfig) :
    (process_with_custom_options cfg document_text natural_query max_summary_length
        force_summarization citation_style inner).2.long_text_threshold =
      cfg.long_text_threshold
    ∧ (process_with_custom_options cfg document_text natural_query max_summary_length
        force_summarization citation_style inner).2.citation_enabled =
      cfg.citation_enabled :=
  ⟨rfl, rfl⟩

/-- Claim C8: when the filename is absent or its lowercased extension is
unsupported, `process_document` returns a validation-failure `ErrorResult`
whose value is independent of the text extractor and of the AI client —
neither collaborator is consulted, whatever bytes (including valid
magic-byte signatures) the file contains. -/
theorem unsupported_extension_short_circuit (st : AppSettings) (filename : Option String)
    (size : Option Nat) (content : List UInt8)
    (extractText : List UInt8 → Option String → Except String String)
    (aiExtract : String → Except String ExtractResponse)
    (h : is_supported_file_type filename = false) :
    (validate_document st filename size).1 = false
    ∧ process_document st filename size content extractText aiExtract =
        .errorResult ("File validation failed: " ++
          pyJoin ", " (validate_document st filename size).2)
    ∧ ∀ (extractText' : List UInt8 → Option String → Except String String)
        (aiExtract' : String → Except String ExtractResponse),
        process_document st filename size content extractText' aiExtract' =
          process_document st filename size content extractText aiExtract := by
  have hv : (validate_document st filename size).1 = false := by
    unfold validate_document
    rw [h]
    cases size with
    | none => simp [List.isEmpty_iff]
    | some fs => split <;> simp [List.isEmpty_iff]
  refine ⟨hv, ?_, ?_⟩
  · simp only [process_document]
    rw [hv]
    simp
  · intro extractText' aiExtract'
    simp only [process_document]
    rw [hv]
    simp

/-- Witness for C8: a file named `report.exe` whose content even starts with
the PDF magic bytes `%PDF` is rejected by validation alone. -/
theorem unsupported_extension_short_circuit_witness :
    (validate_document defaultSettings (some "report.exe") (some 100)).1 = false
    ∧ process_document defaultSettings (some "report.exe") (some 100) [37, 80, 68, 70]
        (fun _ _ => Except.ok "text") (fun _ => Except.ok (.templateResult [])) =
      .errorResult ("File validation failed: " ++
        pyJoin ", " (validate_document defaultSettings (some "report.exe") (some 100)).2) := by
  have h := unsupported_extension_short_circuit defaultSettings (some "report.exe") (some 100)
    [37, 80, 68, 70] (fun _ _ => Except.ok "text") (fun _ => Except.ok (.templateResult []))
    (by decide)
  exact ⟨h.1, h.2.1⟩

/-- Claim C9 (counterexample): for the model response `{"error": {}}` the
recovery parse contains key `error`, but the returned `ErrorResult` does not
carry that value — constructing `ErrorResult` from a non-string raises a
validation error, which the handler converts to the generic
`Dynamic query failed` message. -/
theorem error_key_yields_error_result_counterexample :
    lookupJ (robust_json_parse "\x7b\"error\": \x7b\x7d\x7d") "error" = some (Json.obj [])
    ∧ hasKeyJ (robust_json_parse "\x7b\"error\": \x7b\x7d\x7d") "error" = true
    ∧ process_dynamic_query "" "q" true true (some "\x7b\"error\": \x7b\x7d\x7d") "0.1" =
        DQResult.err ("Dynamic query failed: " ++ pydanticStrFieldErrorText) :=
  ⟨rfl, rfl, rfl⟩

/-- Claim C9 (amended): whenever the recovery parse of a non-empty model
response yields a mapping containing key `error`, `process_dynamic_query`
returns the `ErrorResult` variant and never an `AIExtractionResult`; the
`ErrorResult` carries the parsed `error` value whenever that value is a
string (a non-string value still yields the error variant, via the
exception handler, with a generic message). -/
theorem error_key_yields_error_result (document_text natural_query : String)
    (enable_summarization enable_citations : Bool) (rc : String) (t : String)
    (hrc : rc ≠ "") (h : hasKeyJ (robust_json_parse rc) "error" = true) :
    (∃ msg, process_dynamic_query document_text natural_query enable_summarization
        enable_citations (some rc) t = DQResult.err msg)
    ∧ (∀ payload, process_dynamic_query document_text natural_query enable_summarization
        enable_citations (some rc) t ≠ DQResult.ai payload)
    ∧ (∀ m, lookupJ (robust_json_parse rc) "error" = some (Json.str m) →
        process_dynamic_query document_text natural_query enable_summarization
          enable_citations (some rc) t = DQResult.err m) := by
  have hmain : ∀ msg', (match lookupJ (robust_json_parse rc) "error" with
      | some (Json.str s) => DQResult.err s
      | _ => DQResult.err ("Dynamic query failed: " ++ pydanticStrFieldErrorText)) = msg' →
      ∃ m, msg' = DQResult.err m := by
    intro msg' hm
    split at hm
    · exact ⟨_, hm.symm⟩
    · exact ⟨_, hm.symm⟩
  have hproc : process_dynamic_query document_text natural_query enable_summarization
      enable_citations (some rc) t =
      (match lookupJ (robust_json_parse rc) "error" with
      | some (Json.str s) => DQResult.err s
      | _ => DQResult.err ("Dynamic query failed: " ++ pydanticStrFieldErrorText)) := by
    simp only [process_dynamic_query]
    rw [if_neg hrc, if_pos h]
  refine ⟨?_, ?_, ?_⟩
  · exact hmain _ hproc.symm
  · intro payload hpay
    rw [hproc] at hpay
    split at hpay
    · exact DQResult.noConfusion hpay
    · exact DQResult.noConfusion hpay
  · intro m hm
    rw [hproc, hm]

/-- Witness for C9's amended statement: a parsed `error` field holding a
string is surfaced verbatim as the `ErrorResult`. -/
theorem error_key_yields_error_result_witness :
    process_dynamic_query "" "q" true true (some "\x7b\"error\": \"boom\"\x7d") "0.1" =
      DQResult.err "boom" :=
  (error_key_yields_error_result "" "q" true true "\x7b\"error\": \"boom\"\x7d" "0.1"
    (by decide) rfl).2.2 "boom" rfl

/-!
Lemmas about the PDF page loop.
-/

theorem pdfMarkerNums_gt (pages : List String) :
    ∀ k n, n ∈ pdfMarkerNums k pages → k < n := by
  induction pages with
  | nil => intro k n h; simp [pdfMarkerNums] at h
  | cons p rest ih =>
    intro k n h
    rw [pdfMarkerNums] at h
    split at h
    · rcases List.mem_cons.mp h with h1 | h1
      · omega
      · have := ih (k + 1) n h1; omega
    · have := ih (k + 1) n h; omega

theorem pdfMarkerNums_chain (pages : List String) :
    ∀ k, List.Chain' (· < ·) (pdfMarkerNums k pages) := by
  induction pages with
  | nil => intro k; simp [pdfMarkerNums]
  | cons p rest ih =>
    intro k
    rw [pdfMarkerNums]
    split
    · refine List.chain'_cons'.mpr ⟨?_, ih (k + 1)⟩
      intro b hb
      exact pdfMarkerNums_gt rest (k + 1) b (List.mem_of_mem_head? hb)
    · exact ih (k + 1)

theorem pdfPageTexts_marker (pages : List String) :
    ∀ k n, n ∈ pdfMarkerNums k pages →
      ∃ p, ("--- Page " ++ toString n ++ " ---" ++ "\n" ++ p) ∈ pdfPageTexts k pages := by
  induction pages with
  | nil => intro k n h; simp [pdfMarkerNums] at h
  | cons p rest ih =>
    intro k n h
    rw [pdfMarkerNums] at h
    rw [pdfPageTexts]
    split at h
    · rename_i hc
      rw [if_pos hc]
      rcases List.mem_cons.mp h with h1 | h1
      · subst h1
        exact ⟨p, List.mem_cons_self _ _⟩
      · obtain ⟨q, hq⟩ := ih (k + 1) n h1
        exact ⟨q, List.mem_cons_of_mem _ hq⟩
    · rename_i hc
      rw [if_neg hc]
      exact ih (k + 1) n h

theorem pdfPageTexts_ne_nil (pages : List String) :
    ∀ k, (∃ p ∈ pages, pyStrip p ≠ "") → pdfPageTexts k pages ≠ [] := by
  induction pages with
  | nil => intro k h; simp at h
  | cons p rest ih =>
    intro k h
    rw [pdfPageTexts]
    by_cases hc : pyStrip p ≠ ""
    · rw [if_pos hc]; simp
    · rw [if_neg hc]
      rcases h with ⟨q, hq, hqne⟩
      rcases List.mem_cons.mp hq with h1 | h1
      · exact absurd (h1 ▸ hqne) hc
      · exact ih (k + 1) ⟨q, h1, hqne⟩

theorem pyJoin_mem_decomp (l : List String) (x sep : String) (h : x ∈ l) :
    ∃ a b, pyJoin sep l = a ++ x ++ b := by
  induction l with
  | nil => simp at h
  | cons y rest ih =>
    cases rest with
    | nil =>
      rcases List.mem_singleton.mp h with rfl
      exact ⟨"", "", by rw [String.empty_append, String.append_empty]; rfl⟩
    | cons z zs =>
      rcases List.mem_cons.mp h with h1 | h1
      · subst h1
        refine ⟨"", sep ++ pyJoin sep (z :: zs), ?_⟩
        rw [String.empty_append]
        show x ++ sep ++ pyJoin sep (z :: zs) = x ++ (sep ++ pyJoin sep (z :: zs))
        rw [String.append_assoc]
      · obtain ⟨a, b, hab⟩ := ih h1
        refine ⟨y ++ sep ++ a, b, ?_⟩
        show y ++ sep ++ pyJoin sep (z :: zs) = y ++ sep ++ a ++ x ++ b
        rw [hab]
        simp only [String.append_assoc]

theorem pdfMarkerNums_skip (pages : List String) :
    ∀ k i, i < pages.length → pyStrip (pages.getD i "") = "" →
      (k + i + 1) ∉ pdfMarkerNums k pages := by
  induction pages with
  | nil => intro k i h; simp at h
  | cons p rest ih =>
    intro k i hi hstrip hmem
    rw [pdfMarkerNums] at hmem
    cases i with
    | zero =>
      simp only [List.getD_cons_zero] at hstrip
      rw [if_neg (by simpa using hstrip)] at hmem
      have := pdfMarkerNums_gt rest (k + 1) _ hmem
      omega
    | succ i =>
      simp only [List.getD_cons_succ] at hstrip
      have hin : (k + 1) + i + 1 ∈ pdfMarkerNums (k + 1) rest := by
        split at hmem
        · rcases List.mem_cons.mp hmem with h1 | h1
          · omega
          · have : k + (i + 1) + 1 = (k + 1) + i + 1 := by omega
            exact this ▸ h1
        · have : k + (i + 1) + 1 = (k + 1) + i + 1 := by omega
          exact this ▸ hmem
      exact ih (k + 1) i (by simpa using hi) hstrip hin

theorem pdfMarkerNums_head (pages : List String) :
    (1 ∈ pdfMarkerNums 0 pages) ↔ pyStrip (pages.headD "") ≠ "" := by
  cases pages with
  | nil => simp [pdfMarkerNums, pyStrip]
  | cons p rest =>
    rw [pdfMarkerNums]
    by_cases hc : pyStrip p ≠ ""
    · rw [if_pos hc]
      simp only [List.headD_cons]
      exact iff_of_true (List.mem_cons_self _ _) hc
    · rw [if_neg hc]
      simp only [List.headD_cons]
      refine iff_of_false ?_ hc
      intro hmem
      have := pdfMarkerNums_gt rest 1 1 hmem
      omega

/-- Claim C7 (amended): for every PDF with a non-whitespace page the
extracted text contains a `--- Page N ---` marker for each retained page,
where `N` is the page's original 1-based position; whitespace-only pages are
skipped; the marker numbers are strictly ascending; and the first marker is
`1` exactly when the first page is non-whitespace (so the sequence starts at
1 only in that case). -/
theorem pdf_page_markers (pages : List String) (hne : ∃ p ∈ pages, pyStrip p ≠ "") :
    ∃ out, extract_text_from_pdf pages = Except.ok out
      ∧ (∀ n ∈ pdfMarkerNums 0 pages,
          ∃ a b, out = a ++ ("--- Page " ++ toString n ++ " ---") ++ b)
      ∧ List.Chain' (· < ·) (pdfMarkerNums 0 pages)
      ∧ (∀ i, i < pages.length → pyStrip (pages.getD i "") = "" →
          (i + 1) ∉ pdfMarkerNums 0 pages)
      ∧ ((1 ∈ pdfMarkerNums 0 pages) ↔ pyStrip (pages.headD "") ≠ "") := by
  have h0 := pdfPageTexts_ne_nil pages 0 hne
  cases htc : pdfPageTexts 0 pages with
  | nil => exact absurd htc h0
  | cons t ts =>
    refine ⟨pyJoin "\n\n" (t :: ts), ?_, ?_, pdfMarkerNums_chain _ _, ?_, pdfMarkerNums_head _⟩
    · unfold extract_text_from_pdf
      rw [htc]
    · intro n hn
      obtain ⟨p, hp⟩ := pdfPageTexts_marker pages 0 n hn
      rw [htc] at hp
      obtain ⟨a, b, hab⟩ := pyJoin_mem_decomp _ _ "\n\n" hp
      refine ⟨a, "\n" ++ p ++ b, ?_⟩
      rw [hab]
      simp only [String.append_assoc]
    · intro i hi hstrip
      have := pdfMarkerNums_skip pages 0 i hi hstrip
      simpa using this

/-- Claim C7 (counterexample): with a whitespace-only first page the marker
sequence is `[2]` — ascending, but not starting at 1. -/
theorem pdf_page_markers_counterexample :
    extract_text_from_pdf ["   ", "hello"] = Except.ok ("--- Page 2 ---" ++ "\n" ++ "hello")
    ∧ pdfMarkerNums 0 ["   ", "hello"] = [2]
    ∧ (pdfMarkerNums 0 ["   ", "hello"]).head? ≠ some 1 :=
  ⟨rfl, rfl, by decide⟩

/-- Witness for C7's amended statement at a PDF whose first page is
whitespace-only. -/
theorem pdf_page_markers_witness :
    ∃ out, extract_text_from_pdf ["   ", "hello"] = Except.ok out
      ∧ (∀ n ∈ pdfMarkerNums 0 ["   ", "hello"],
          ∃ a b, out = a ++ ("--- Page " ++ toString n ++ " ---") ++ b)
      ∧ List.Chain' (· < ·) (pdfMarkerNums 0 ["   ", "hello"])
      ∧ (∀ i, i < (["   ", "hello"] : List String).length →
          pyStrip ((["   ", "hello"] : List String).getD i "") = "" →
          (i + 1) ∉ pdfMarkerNums 0 ["   ", "hello"])
      ∧ ((1 ∈ pdfMarkerNums 0 ["   ", "hello"]) ↔
          pyStrip ((["   ", "hello"] : List String).headD "") ≠ "") :=
  pdf_page_markers ["   ", "hello"] (by decide)

/-!
Lemmas for the Document Sectioner's fixed-size fallback.
-/

theorem tryPatterns_single (ms : List (List Char → Option (List Char))) (doc : String)
    (h : ∀ m ∈ ms, ((reSplit m doc).filter (fun s => pyStrip s ≠ "")).length ≤ 1) :
    tryPatterns ms [doc] = [doc] := by
  induction ms with
  | nil => rfl
  | cons m ms ih =>
    simp only [tryPatterns]
    have hm := h m (List.mem_cons_self _ _)
    have hflat : ([doc].map (fun sec => (reSplit m sec).filter (fun s => pyStrip s ≠ ""))).flatten
        = (reSplit m doc).filter (fun s => pyStrip s ≠ "") := by simp
    rw [hflat, if_neg (by omega)]
    exact ih fun m' hm' => h m' (List.mem_cons_of_mem _ hm')

theorem pyChunksGo_flatten (s : List Char) (cs : Nat) (hcs : 0 < cs) :
    ∀ i, (pyChunksGo s cs hcs i).flatten = s.drop i := by
  refine pyChunksGo.induct s cs hcs
    (fun i => (pyChunksGo s cs hcs i).flatten = s.drop i) ?_ ?_
  · intro i hi ih
    rw [pyChunksGo, dif_pos hi, List.flatten_cons, ih]
    rw [← List.drop_drop, List.take_append_drop]
  · intro i hi
    rw [pyChunksGo, dif_neg hi]
    simp [List.drop_eq_nil_of_le (Nat.le_of_not_lt hi)]

theorem pyChunksGo_two (s : List Char) (cs : Nat) (hcs : 0 < cs)
    (h0 : 0 < s.length) (hlt : cs < s.length) :
    1 < (pyChunksGo s cs hcs 0).length := by
  rw [pyChunksGo, dif_pos h0]
  rw [pyChunksGo, dif_pos (show 0 + cs < s.length by omega)]
  simp only [List.length_cons]
  omega

theorem pageMapFrom_eq (l : List String) :
    ∀ k, pageMapFrom k l =
      (List.range l.length).map (fun i => ("page_" ++ toString (k + i + 1), k + i + 1)) := by
  induction l with
  | nil => intro k; rfl
  | cons x xs ih =>
    intro k
    rw [pageMapFrom, ih (k + 1), List.length_cons, List.range_succ_eq_map]
    simp only [List.map_cons, List.map_map]
    refine congrArg₂ _ (by simp) ?_
    refine List.map_congr_left ?_
    intro i _
    simp only [Function.comp]
    have harith : k + 1 + i + 1 = k + (i + 1) + 1 := by omega
    rw [harith]

/-- Claim C6: for a document longer than the 2000-character threshold on
which no structural section pattern yields more than one non-blank piece,
`_split_into_sections` falls back to fixed-size chunking with more than one
section whose concatenation is exactly the document, and with citations
enabled the page map is non-empty with one entry `page_N ↦ N` per section. -/
theorem sectioner_fallback_chunking (doc : String)
    (hlen : 2000 < doc.length)
    (hpat : ∀ m ∈ sectionMatchers,
      ((reSplit m doc).filter (fun s => pyStrip s ≠ "")).length ≤ 1) :
    1 < (split_into_sections doc).length
    ∧ String.mk (((split_into_sections doc).map String.toList).flatten) = doc
    ∧ (preprocess_document_with_citations doc true).2 ≠ []
    ∧ (preprocess_document_with_citations doc true).2 =
        (List.range (split_into_sections doc).length).map
          (fun i => ("page_" ++ toString (i + 1), i + 1)) := by
  have htry := tryPatterns_single sectionMatchers doc hpat
  have hc3 : 3 ≤ (doc.length + 999) / 1000 :=
    (Nat.le_div_iff_mul_le (by norm_num)).mpr (by omega)
  have hcle : (doc.length + 999) / 1000 ≤ doc.length := by
    calc (doc.length + 999) / 1000 ≤ 1000 * doc.length / 1000 :=
          Nat.div_le_div_right (by omega)
      _ = doc.length := Nat.mul_div_cancel_left _ (by norm_num)
  have hcspos : 0 < doc.length / ((doc.length + 999) / 1000) :=
    (Nat.one_le_div_iff (by omega)).mpr hcle
  have hcslt : doc.length / ((doc.length + 999) / 1000) < doc.length :=
    lt_of_le_of_lt (Nat.div_le_div_left hc3 (by norm_num))
      (Nat.div_lt_self (by omega) (by norm_num))
  have hdata : doc.toList.length = doc.length := rfl
  have hsecs : split_into_sections doc =
      (pyChunksGo doc.toList (doc.length / ((doc.length + 999) / 1000)) hcspos 0).map
        String.mk := by
    simp only [split_into_sections]
    rw [htry]
    rw [if_pos ⟨rfl, hlen⟩]
    rw [pyChunks, dif_pos hcspos]
  have hone : 1 < (split_into_sections doc).length := by
    rw [hsecs, List.length_map]
    exact pyChunksGo_two _ _ _ (by omega) (hdata ▸ hcslt)
  have hcat : String.mk (((split_into_sections doc).map String.toList).flatten) = doc := by
    have hid : (split_into_sections doc).map String.toList =
        pyChunksGo doc.toList (doc.length / ((doc.length + 999) / 1000)) hcspos 0 := by
      rw [hsecs, List.map_map]
      have hcg : List.map (String.toList ∘ String.mk)
          (pyChunksGo doc.toList (doc.length / ((doc.length + 999) / 1000)) hcspos 0) =
          List.map id
            (pyChunksGo doc.toList (doc.length / ((doc.length + 999) / 1000)) hcspos 0) :=
        List.map_congr_left fun l _ => rfl
      rw [hcg, List.map_id]
    rw [hid, pyChunksGo_flatten, List.drop_zero]
    rfl
  have hpm : (preprocess_document_with_citations doc true).2 =
      pageMapFrom 0 (split_into_sections doc) := rfl
  refine ⟨hone, hcat, ?_, ?_⟩
  · rw [hpm, pageMapFrom_eq]
    intro hcon
    rw [List.map_eq_nil_iff, List.range_eq_nil] at hcon
    omega
  · rw [hpm, pageMapFrom_eq]
    refine List.map_congr_left ?_
    intro i _
    simp

theorem matchChapter_no_newline (c : Char) (rest : List Char) (h : c ≠ '\n') :
    matchChapter (c :: rest) = none := by
  rw [matchChapter, if_neg h]

theorem matchNumbered_no_newline (c : Char) (rest : List Char) (h : c ≠ '\n') :
    matchNumbered (c :: rest) = none := by
  rw [matchNumbered, if_neg h]

theorem matchCapsHeader_no_newline (c : Char) (rest : List Char) (h : c ≠ '\n') :
    matchCapsHeader (c :: rest) = none := by
  rw [matchCapsHeader, if_neg h]

theorem matchRule_no_newline (r c : Char) (rest : List Char) (h : c ≠ '\n') :
    matchRule r (c :: rest) = none := by
  rw [matchRule, if_neg h]

theorem sectionMatchers_no_newline (m : List Char → Option (List Char))
    (hm : m ∈ sectionMatchers) (c : Char) (rest : List Char) (h : c ≠ '\n') :
    m (c :: rest) = none := by
  fin_cases hm
  · exact matchChapter_no_newline c rest h
  · exact matchNumbered_no_newline c rest h
  · exact matchCapsHeader_no_newline c rest h
  · exact matchRule_no_newline '=' c rest h
  · exact matchRule_no_newline '-' c rest h

theorem reSplitGo_nomatch (m : List Char → Option (List Char))
    (hm : ∀ c rest, c ≠ '\n' → m (c :: rest) = none) :
    ∀ (cs : List Char) (fuel : Nat) (acc : List Char), cs.length < fuel →
      (∀ c ∈ cs, c ≠ '\n') → reSplitGo m fuel acc cs = [acc.reverse ++ cs] := by
  intro cs
  induction cs with
  | nil =>
    intro fuel acc hfuel _
    cases fuel with
    | zero => omega
    | succ f => simp [reSplitGo]
  | cons c rest ih =>
    intro fuel acc hfuel hall
    cases fuel with
    | zero => simp at hfuel
    | succ f =>
      rw [reSplitGo, hm c rest (hall c (List.mem_cons_self _ _))]
      rw [ih f (c :: acc) (by simpa using hfuel) (fun x hx => hall x (List.mem_cons_of_mem _ hx))]
      simp

theorem reSplit_nomatch (m : List Char → Option (List Char))
    (hm : ∀ c rest, c ≠ '\n' → m (c :: rest) = none)
    (s : String) (hall : ∀ c ∈ s.toList, c ≠ '\n') :
    reSplit m s = [s] := by
  unfold reSplit
  rw [reSplitGo_nomatch m hm s.toList (s.toList.length + 1) [] (by omega) hall]
  simp

/-- Witness for C6 at a 2001-character document with no section structure
(no newline at all, so no pattern can match). -/
theorem sectioner_fallback_chunking_witness :
    1 < (split_into_sections (String.mk (List.replicate 2001 'a'))).length
    ∧ String.mk (((split_into_sections (String.mk (List.replicate 2001 'a'))).map
        String.toList).flatten) = String.mk (List.replicate 2001 'a')
    ∧ (preprocess_document_with_citations (String.mk (List.replicate 2001 'a')) true).2 ≠ []
    ∧ (preprocess_document_with_citations (String.mk (List.replicate 2001 'a')) true).2 =
        (List.range (split_into_sections (String.mk (List.replicate 2001 'a'))).length).map
          (fun i => ("page_" ++ toString (i + 1), i + 1)) := by
  have hall : ∀ c ∈ (String.mk (List.replicate 2001 'a')).toList, c ≠ '\n' := by
    intro c hc
    have : c = 'a' := (List.eq_of_mem_replicate hc)
    subst this
    decide
  refine sectioner_fallback_chunking _ ?_ ?_
  · show 2000 < (List.replicate 2001 'a').length
    rw [List.length_replicate]
    omega
  · intro m hmem
    rw [reSplit_nomatch m (sectionMatchers_no_newline m hmem) _ hall]
    cases hf : List.filter (fun s => decide (pyStrip s ≠ "")) [String.mk (List.replicate 2001 'a')] with
    | nil => simp
    | cons x xs =>
      have := List.length_filter_le (fun s => decide (pyStrip s ≠ ""))
        [String.mk (List.replicate 2001 'a')]
      rw [hf] at this
      simpa using this
